import Mathlib

/-! The WebSocket JSON-RPC server of `ws/server.go`.

A shallow embedding of `Server`, `NewServer`, `Server.Listen`, `Server.Addr`
and `Server.Close`.

* The `Server` struct is a record of its six fields; the mutex `mut` is a
  held/free flag.
* Every statement of the Go code that touches a field, the mutex or a library
  is one primitive step.  A step appends an `Event` to a trace; a field access
  records whether the mutex was held at that moment.
* The libraries (`rpc`, `net`, `net/http`) are not part of the file.  Their
  results are supplied by an `Env` of oracles, each of which sees the whole
  history of events, so that a result may depend on everything that happened
  before (a second bind may yield another socket, a second close may fail).
* `log. ... .Fatal` logs and ends the process with status 1 (logrus), which is
  the outcome `Outcome.exited 1`.
-/

namespace Ws

/-! ## Values of the Go program -/

/-- A non-nil Go `error`, identified by its message; `Option GoError` is the
interface type `error`, with `none` for `nil`. -/
structure GoError where
  msg : String
  deriving DecidableEq, Repr

/-- A non-nil `net.Addr`: network name and printed address. -/
structure NetAddr where
  network : String
  str : String
  deriving DecidableEq, Repr

/-- A non-nil `net.Listener` as returned by `net.Listen`: the socket it owns and
the local address it is bound to, which is what its `Addr()` method returns. -/
structure Listener where
  fd : Nat
  laddr : NetAddr
  deriving DecidableEq, Repr

/-- A non-nil `*rpc.Server`, identified by its pointer. -/
structure RpcServer where
  ptr : Nat
  deriving DecidableEq, Repr

/-- The interface value `OrderHandler`: `absent` is the nil interface. -/
inductive OrderHandler where
  | absent
  | impl (id : Nat)
  deriving DecidableEq, Repr

/-- The struct `rpcService` built at line 41, with its one field. -/
structure RpcService where
  orderHandler : OrderHandler
  deriving DecidableEq, Repr

/-- The `http.Handler` returned by `WebsocketHandler`: it captures the receiver
and the list of allowed origins. -/
structure Handler where
  srv : Option RpcServer
  allowedOrigins : List String
  deriving DecidableEq, Repr

/-- The result pair of `net.Listen`. -/
inductive ListenResult where
  | ok (l : Listener)
  | error (err : GoError)
  deriving DecidableEq, Repr

/-- The struct `Server` (lines 17-24).  `mutHeld` is the field `mut` (a reserved word here):
`true` when the mutex is held. -/
structure Server where
  mutHeld : Bool
  addr : String
  listenerAddr : Option NetAddr
  orderHandler : OrderHandler
  listener : Option Listener
  rpcServer : Option RpcServer
  deriving DecidableEq, Repr

/-- The fields of `Server` that the methods read or write. -/
inductive Field where
  | addr
  | orderHandler
  | listener
  | rpcServer
  deriving DecidableEq, Repr

/-- One observable step of a method.  `read` and `write` carry the state of the
mutex at the moment of the access. -/
inductive Event where
  | lock
  | unlock
  | read (f : Field) (held : Bool)
  | write (f : Field) (held : Bool)
  | rpcNewServer (r : RpcServer)
  | registerName (r : RpcServer) (name : String) (svc : RpcService) (res : Option GoError)
  | netListen (network : String) (address : String) (res : ListenResult)
  | logFatal (msg : String) (err : GoError)
  | websocketHandler (r : Option RpcServer) (origins : List String)
  | httpServe (l : Listener) (h : Handler) (res : Option GoError)
  | listenerAddr (l : Listener)
  | rpcStop (r : RpcServer)
  | listenerClose (l : Listener) (res : Option GoError)
  deriving DecidableEq, Repr

/-- The libraries the server calls.  Every oracle receives the history of events
up to the call.  `httpServe` answers `none` when the serve call never returns. -/
structure Env where
  rpcNewServer : List Event → RpcServer
  registerName : List Event → RpcServer → String → RpcService → Option GoError
  netListen : List Event → String → String → ListenResult
  httpServe : List Event → Listener → Handler → Option GoError
  listenerClose : List Event → Listener → Option GoError

/-- How a method call ends: it returns a value, the process exits (`log.Fatal`),
a goroutine panics, or the call blocks for ever. -/
inductive Outcome (α : Type) where
  | returned (v : α)
  | exited (code : Nat)
  | panicked (msg : String)
  | blocked
  deriving DecidableEq, Repr

/-- The server together with the history of events. -/
structure Run where
  srv : Server
  trace : List Event
  deriving DecidableEq, Repr

/-- A piece of a method body: from a state to an outcome and the state reached. -/
def Prog (α : Type) : Type := Run → Outcome α × Run

/-- Return without a step. -/
def Prog.pure {α : Type} (v : α) : Prog α := fun r => (Outcome.returned v, r)

/-- Sequencing: what follows runs only when the first part returned. -/
def Prog.bind {α β : Type} (m : Prog α) (f : α → Prog β) : Prog β := fun r =>
  match m r with
  | (Outcome.returned v, r1) => f v r1
  | (Outcome.exited c, r1) => (Outcome.exited c, r1)
  | (Outcome.panicked msg, r1) => (Outcome.panicked msg, r1)
  | (Outcome.blocked, r1) => (Outcome.blocked, r1)

instance : Monad Prog where
  pure := Prog.pure
  bind := Prog.bind

/-- The message of the run-time panic for a method call through a nil pointer or
nil interface. -/
def nilDeref : String :=
  "runtime error: invalid memory address or nil pointer dereference"

/-! ## Primitive steps -/

/-- The call `s.mut.Lock()`: blocks while the mutex is held. -/
def lock : Prog Unit := fun r =>
  if r.srv.mutHeld then (Outcome.blocked, r)
  else (Outcome.returned (), { srv := { r.srv with mutHeld := true }, trace := r.trace ++ [Event.lock] })

/-- The call `s.mut.Unlock()`: a fatal run-time error when the mutex is free. -/
def unlock : Prog Unit := fun r =>
  if r.srv.mutHeld then
    (Outcome.returned (), { srv := { r.srv with mutHeld := false }, trace := r.trace ++ [Event.unlock] })
  else (Outcome.panicked "sync: unlock of unlocked mutex", r)

/-- Read of `s.addr`. -/
def readAddr : Prog String := fun r =>
  (Outcome.returned r.srv.addr, { r with trace := r.trace ++ [Event.read Field.addr r.srv.mutHeld] })

/-- Read of `s.orderHandler`. -/
def readOrderHandler : Prog OrderHandler := fun r =>
  (Outcome.returned r.srv.orderHandler,
    { r with trace := r.trace ++ [Event.read Field.orderHandler r.srv.mutHeld] })

/-- Read of `s.listener`. -/
def readListener : Prog (Option Listener) := fun r =>
  (Outcome.returned r.srv.listener,
    { r with trace := r.trace ++ [Event.read Field.listener r.srv.mutHeld] })

/-- Read of `s.rpcServer`. -/
def readRpcServer : Prog (Option RpcServer) := fun r =>
  (Outcome.returned r.srv.rpcServer,
    { r with trace := r.trace ++ [Event.read Field.rpcServer r.srv.mutHeld] })

/-- The assignment `s.listener = l`. -/
def writeListener (l : Option Listener) : Prog Unit := fun r =>
  (Outcome.returned (), { srv := { r.srv with listener := l },
                          trace := r.trace ++ [Event.write Field.listener r.srv.mutHeld] })

/-- The assignment `s.rpcServer = p`. -/
def writeRpcServer (p : Option RpcServer) : Prog Unit := fun r =>
  (Outcome.returned (), { srv := { r.srv with rpcServer := p },
                          trace := r.trace ++ [Event.write Field.rpcServer r.srv.mutHeld] })

/-- The call `rpc.NewServer()`. -/
def rpcNewServer (env : Env) : Prog RpcServer := fun r =>
  let p := env.rpcNewServer r.trace
  (Outcome.returned p, { r with trace := r.trace ++ [Event.rpcNewServer p] })

/-- The call `p.RegisterName(name, svc)`. -/
def registerName (env : Env) (p : RpcServer) (name : String) (svc : RpcService) :
    Prog (Option GoError) := fun r =>
  let res := env.registerName r.trace p name svc
  (Outcome.returned res, { r with trace := r.trace ++ [Event.registerName p name svc res] })

/-- The call `net.Listen(network, address)`. -/
def netListen (env : Env) (network address : String) : Prog ListenResult := fun r =>
  let res := env.netListen r.trace network address
  (Outcome.returned res, { r with trace := r.trace ++ [Event.netListen network address res] })

/-- The call `log.WithField("err", err.Error()).Fatal(msg)`: the entry is logged
and the process exits with status 1. -/
def logFatal {α : Type} (msg : String) (err : GoError) : Prog α := fun r =>
  (Outcome.exited 1, { r with trace := r.trace ++ [Event.logFatal msg err] })

/-- A run-time panic. -/
def goPanic {α : Type} (msg : String) : Prog α := fun r => (Outcome.panicked msg, r)

/-- The call `p.WebsocketHandler(origins)`: it builds the handler around the
receiver without using it. -/
def websocketHandler (p : Option RpcServer) (origins : List String) : Prog Handler := fun r =>
  (Outcome.returned { srv := p, allowedOrigins := origins },
    { r with trace := r.trace ++ [Event.websocketHandler p origins] })

/-- The call `http.Serve(l, h)`: it blocks until the accept loop fails and
returns that error; on a nil listener the accept call panics. -/
def httpServe (env : Env) (l : Option Listener) (h : Handler) : Prog (Option GoError) := fun r =>
  match l with
  | none => (Outcome.panicked nilDeref, r)
  | some l =>
    match env.httpServe r.trace l h with
    | none => (Outcome.blocked, { r with trace := r.trace ++ [Event.httpServe l h none] })
    | some e =>
      (Outcome.returned (some e), { r with trace := r.trace ++ [Event.httpServe l h (some e)] })

/-- The call `l.Addr()` on a non-nil listener. -/
def listenerAddr (l : Listener) : Prog NetAddr := fun r =>
  (Outcome.returned l.laddr, { r with trace := r.trace ++ [Event.listenerAddr l] })

/-- The call `p.Stop()` on a non-nil RPC server. -/
def rpcStop (p : RpcServer) : Prog Unit := fun r =>
  (Outcome.returned (), { r with trace := r.trace ++ [Event.rpcStop p] })

/-- The call `l.Close()` on a non-nil listener. -/
def listenerClose (env : Env) (l : Listener) : Prog (Option GoError) := fun r =>
  let res := env.listenerClose r.trace l
  (Outcome.returned res, { r with trace := r.trace ++ [Event.listenerClose l res] })

/-! ## The methods -/

/-- The function `NewServer` (lines 29-34): the struct with `addr` and
`orderHandler` set and every other field zero, and a nil error. -/
def NewServer (addr : String) (orderHandler : OrderHandler) : Server × Option GoError :=
  ({ mutHeld := false, addr := addr, listenerAddr := none, orderHandler := orderHandler,
     listener := none, rpcServer := none }, none)

/-- Lines 39-54 of `Listen`: everything up to and including the last `Unlock`.
The fatal log call of line 46 is reached with the mutex held; the one of line 51
follows the `Unlock` of line 50. -/
def ListenSetup (env : Env) : Prog Unit := do
  lock
  let oh ← readOrderHandler
  let rpcService : RpcService := { orderHandler := oh }
  let p ← rpcNewServer env
  writeRpcServer (some p)
  let q ← readRpcServer
  match q with
  | none => goPanic nilDeref
  | some q =>
    let regErr ← registerName env q "mesh" rpcService
    match regErr with
    | some err => logFatal "could not register RPC service" err
    | none =>
      let a ← readAddr
      let res ← netListen env "tcp4" a
      match res with
      | ListenResult.error err =>
        unlock
        logFatal "could not start listener" err
      | ListenResult.ok listener =>
        writeListener (some listener)
        unlock

/-- Line 56 of `Listen`: the arguments are evaluated left to right, then
`http.Serve` runs and its result is returned. -/
def ListenServe (env : Env) : Prog (Option GoError) := do
  let l ← readListener
  let p ← readRpcServer
  let h ← websocketHandler p ["*"]
  httpServe env l h

/-- The method `Server.Listen` (lines 38-57). -/
def Listen (env : Env) : Prog (Option GoError) := do
  ListenSetup env
  ListenServe env

/-- The method `Server.Addr` (lines 61-68).  The deferred `Unlock` runs when the
method leaves, by a return or by a panic, after the returned value has been
computed. -/
def Addr : Prog (Option NetAddr) := do
  lock
  let l ← readListener
  match l with
  | none =>
    unlock
    pure none
  | some _ =>
    let l2 ← readListener
    match l2 with
    | none =>
      unlock
      goPanic nilDeref
    | some l2 =>
      let a ← listenerAddr l2
      unlock
      pure (some a)

/-- The method `Server.Close` (lines 72-75).  It takes no lock.  `Stop` uses the
fields of its receiver, so the call through a nil `*rpc.Server` panics, and so
does a method call on a nil `net.Listener`. -/
def Close (env : Env) : Prog (Option GoError) := do
  let p ← readRpcServer
  match p with
  | none => goPanic nilDeref
  | some p =>
    rpcStop p
    let l ← readListener
    match l with
    | none => goPanic nilDeref
    | some l => listenerClose env l

/-- A fresh process: the server just built and no event yet. -/
def start (addr : String) (orderHandler : OrderHandler) : Run :=
  { srv := (NewServer addr orderHandler).1, trace := [] }

/-- The events a call of `m` in state `r` adds to the history. -/
def eventsOf {α : Type} (m : Prog α) (r : Run) : List Event :=
  (m r).2.trace.drop r.trace.length

/-! ## Concrete libraries, for evaluating the methods -/

/-- Whether `l.Close()` already appears in the history. -/
def closedIn (hist : List Event) (l : Listener) : Bool :=
  hist.any fun e =>
    match e with
    | Event.listenerClose l2 _ => decide (l2 = l)
    | _ => false

/-- The error of an operation on a socket that was closed. -/
def errClosedConn : GoError :=
  { msg := "accept tcp4 127.0.0.1:60557: use of closed network connection" }

/-- The error of closing a socket that was closed. -/
def errCloseTwice : GoError :=
  { msg := "close tcp4 127.0.0.1:60557: use of closed network connection" }

/-- The error of a bind at an address already in use. -/
def errInUse : GoError :=
  { msg := "listen tcp4 127.0.0.1:60557: bind: address already in use" }

/-- The error of a registration that finds no suitable method. -/
def errNoMethods : GoError :=
  { msg := "service mesh doesn't have any suitable methods/subscriptions to expose" }

/-- The address the operating system assigns to socket `fd` in `envOk`: every
socket gets a port of its own. -/
def addrOfFd (fd : Nat) : NetAddr := { network := "tcp", str := "127.0.0.1:" ++ toString (60550 + fd) }

/-- The address of the first socket bound in the examples. -/
def boundAddr : NetAddr := addrOfFd 7

/-- Libraries that work: every `rpc.NewServer()` yields a new pointer and every
bind a new socket (numbered by the length of the history), registration
succeeds, the serve call returns only once its listener was closed, and closing
a listener a second time is an error. -/
def envOk : Env where
  rpcNewServer := fun hist => { ptr := hist.length }
  registerName := fun _ _ _ _ => none
  netListen := fun hist _ _ =>
    ListenResult.ok { fd := hist.length, laddr := addrOfFd hist.length }
  httpServe := fun hist l _ => if closedIn hist l then some errClosedConn else none
  listenerClose := fun hist l => if closedIn hist l then some errCloseTwice else none

/-- As `envOk`, but service registration fails. -/
def envRegFail : Env := { envOk with registerName := fun _ _ _ _ => some errNoMethods }

/-- As `envOk`, but the bind fails. -/
def envBindFail : Env := { envOk with netListen := fun _ _ _ => ListenResult.error errInUse }

/-- The handler used in the examples. -/
def someHandler : OrderHandler := OrderHandler.impl 1

/-- The state of a server on which `Listen` finished its setup in `envOk`. -/
def listening : Run := (ListenSetup envOk (start "127.0.0.1:0" someHandler)).2

/-- The state of a server on which `Listen` finished its setup and `Close` ran. -/
def closed : Run := (Close envOk listening).2

/-! ## What each method does, step by step -/

/-- On a held mutex `Lock` never returns, so the setup of `Listen` blocks before
its first step. -/
theorem ListenSetup_held (env : Env) (r : Run) (hheld : r.srv.mutHeld = true) :
    ListenSetup env r = (Outcome.blocked, r) := by
  simp [ListenSetup, bind, Prog.bind, lock, hheld]

/-- On a free mutex the setup of `Listen` ends in one of three ways: a fatal exit
after the registration answered an error (mutex still held), a fatal exit after
the bind answered an error (mutex released), or a return with the listener that
the bind answered installed. -/
theorem ListenSetup_free (env : Env) (r : Run) (hfree : r.srv.mutHeld = false) :
    (∃ hist p e, env.registerName hist p "mesh" { orderHandler := r.srv.orderHandler } = some e ∧
      ListenSetup env r = (Outcome.exited 1,
        { srv := { r.srv with mutHeld := true, rpcServer := some p },
          trace := r.trace ++ [Event.lock, Event.read Field.orderHandler true,
            Event.rpcNewServer p, Event.write Field.rpcServer true,
            Event.read Field.rpcServer true,
            Event.registerName p "mesh" { orderHandler := r.srv.orderHandler } (some e),
            Event.logFatal "could not register RPC service" e] })) ∨
    (∃ hist p e, env.netListen hist "tcp4" r.srv.addr = ListenResult.error e ∧
      ListenSetup env r = (Outcome.exited 1,
        { srv := { r.srv with mutHeld := false, rpcServer := some p },
          trace := r.trace ++ [Event.lock, Event.read Field.orderHandler true,
            Event.rpcNewServer p, Event.write Field.rpcServer true,
            Event.read Field.rpcServer true,
            Event.registerName p "mesh" { orderHandler := r.srv.orderHandler } none,
            Event.read Field.addr true,
            Event.netListen "tcp4" r.srv.addr (ListenResult.error e),
            Event.unlock,
            Event.logFatal "could not start listener" e] })) ∨
    (∃ hist p l, env.netListen hist "tcp4" r.srv.addr = ListenResult.ok l ∧
      ListenSetup env r = (Outcome.returned (),
        { srv := { r.srv with mutHeld := false, rpcServer := some p, listener := some l },
          trace := r.trace ++ [Event.lock, Event.read Field.orderHandler true,
            Event.rpcNewServer p, Event.write Field.rpcServer true,
            Event.read Field.rpcServer true,
            Event.registerName p "mesh" { orderHandler := r.srv.orderHandler } none,
            Event.read Field.addr true,
            Event.netListen "tcp4" r.srv.addr (ListenResult.ok l),
            Event.write Field.listener true,
            Event.unlock] })) := by
  simp only [ListenSetup, bind, Prog.bind, lock, hfree, readOrderHandler, rpcNewServer,
    writeRpcServer, readRpcServer, registerName, readAddr, netListen, unlock, writeListener,
    logFatal]
  simp only [Bool.false_eq_true, if_false, List.append_assoc, List.singleton_append,
    List.cons_append, List.nil_append]
  cases hreg : env.registerName
      (r.trace ++ [Event.lock, Event.read Field.orderHandler true,
        Event.rpcNewServer (env.rpcNewServer (r.trace ++ [Event.lock,
          Event.read Field.orderHandler true])),
        Event.write Field.rpcServer true, Event.read Field.rpcServer true])
      (env.rpcNewServer (r.trace ++ [Event.lock, Event.read Field.orderHandler true]))
      "mesh" { orderHandler := r.srv.orderHandler } with
  | some e =>
    left
    exact ⟨_, env.rpcNewServer (r.trace ++ [Event.lock, Event.read Field.orderHandler true]), e,
      hreg, by simp [logFatal]⟩
  | none =>
    right
    cases hb : env.netListen
        (r.trace ++ [Event.lock, Event.read Field.orderHandler true,
          Event.rpcNewServer (env.rpcNewServer (r.trace ++ [Event.lock,
            Event.read Field.orderHandler true])),
          Event.write Field.rpcServer true, Event.read Field.rpcServer true,
          Event.registerName
            (env.rpcNewServer (r.trace ++ [Event.lock, Event.read Field.orderHandler true]))
            "mesh" { orderHandler := r.srv.orderHandler } none,
          Event.read Field.addr true])
        "tcp4" r.srv.addr with
    | error e =>
      left
      exact ⟨_, env.rpcNewServer (r.trace ++ [Event.lock, Event.read Field.orderHandler true]), e,
        hb, by simp [readAddr, netListen, Prog.bind, hb, unlock, logFatal]⟩
    | ok l =>
      right
      exact ⟨_, env.rpcNewServer (r.trace ++ [Event.lock, Event.read Field.orderHandler true]), l,
        hb, by simp [readAddr, netListen, Prog.bind, hb, unlock, writeListener]⟩

/-- The events of a call whose final history extends the initial one. -/
theorem eventsOf_eq {α : Type} (m : Prog α) (r : Run) (o : Outcome α) (s : Server)
    (evs : List Event) (h : m r = (o, { srv := s, trace := r.trace ++ evs })) :
    eventsOf m r = evs := by
  simp [eventsOf, h]

/-- The method `Listen` is its setup followed, when the setup returned, by line 56. -/
theorem Listen_eq (env : Env) (r : Run) :
    Listen env r =
      match ListenSetup env r with
      | (Outcome.returned _, r1) => ListenServe env r1
      | (Outcome.exited c, r1) => (Outcome.exited c, r1)
      | (Outcome.panicked msg, r1) => (Outcome.panicked msg, r1)
      | (Outcome.blocked, r1) => (Outcome.blocked, r1) := by
  simp only [Listen, bind, Prog.bind]
  rcases ListenSetup env r with ⟨o, r1⟩
  cases o <;> rfl

/-- Line 56 on a server without listener: the serve call panics. -/
theorem ListenServe_none (env : Env) (r : Run) (hl : r.srv.listener = none) :
    ListenServe env r = (Outcome.panicked nilDeref,
      { srv := r.srv,
        trace := r.trace ++ [Event.read Field.listener r.srv.mutHeld,
          Event.read Field.rpcServer r.srv.mutHeld,
          Event.websocketHandler r.srv.rpcServer ["*"]] }) := by
  simp [ListenServe, bind, Prog.bind, readListener, readRpcServer, websocketHandler, httpServe, hl]

/-- Line 56 on a server with a listener: `Listen` returns what the serve call
returns, or blocks with it. -/
theorem ListenServe_some (env : Env) (r : Run) (l : Listener) (hl : r.srv.listener = some l) :
    (∃ e, ListenServe env r = (Outcome.returned (some e),
      { srv := r.srv,
        trace := r.trace ++ [Event.read Field.listener r.srv.mutHeld,
          Event.read Field.rpcServer r.srv.mutHeld,
          Event.websocketHandler r.srv.rpcServer ["*"],
          Event.httpServe l { srv := r.srv.rpcServer, allowedOrigins := ["*"] } (some e)] })) ∨
    ListenServe env r = (Outcome.blocked,
      { srv := r.srv,
        trace := r.trace ++ [Event.read Field.listener r.srv.mutHeld,
          Event.read Field.rpcServer r.srv.mutHeld,
          Event.websocketHandler r.srv.rpcServer ["*"],
          Event.httpServe l { srv := r.srv.rpcServer, allowedOrigins := ["*"] } none] }) := by
  simp only [ListenServe, bind, Prog.bind, readListener, readRpcServer, websocketHandler,
    httpServe, hl, List.append_assoc, List.singleton_append, List.cons_append, List.nil_append]
  cases hs : env.httpServe
      (r.trace ++ [Event.read Field.listener r.srv.mutHeld,
        Event.read Field.rpcServer r.srv.mutHeld,
        Event.websocketHandler r.srv.rpcServer ["*"]])
      l { srv := r.srv.rpcServer, allowedOrigins := ["*"] } with
  | none => right; simp
  | some e => left; exact ⟨e, by simp⟩

/-- The method `Addr` on a held mutex blocks before its first step. -/
theorem Addr_held (r : Run) (hheld : r.srv.mutHeld = true) : Addr r = (Outcome.blocked, r) := by
  simp [Addr, bind, Prog.bind, lock, hheld]

/-- The method `Addr` on a free mutex and no listener. -/
theorem Addr_free_none (r : Run) (hfree : r.srv.mutHeld = false) (hl : r.srv.listener = none) :
    Addr r = (Outcome.returned none,
      { srv := r.srv, trace := r.trace ++ [Event.lock, Event.read Field.listener true,
          Event.unlock] }) := by
  obtain ⟨s, t⟩ := r
  obtain ⟨m, a, la, oh, l, p⟩ := s
  simp only at hfree hl
  subst hfree hl
  simp [Addr, bind, Prog.bind, lock, unlock, readListener, pure, Prog.pure]

/-- The method `Addr` on a free mutex and a listener. -/
theorem Addr_free_some (r : Run) (l : Listener) (hfree : r.srv.mutHeld = false)
    (hl : r.srv.listener = some l) :
    Addr r = (Outcome.returned (some l.laddr),
      { srv := r.srv, trace := r.trace ++ [Event.lock, Event.read Field.listener true,
          Event.read Field.listener true, Event.listenerAddr l, Event.unlock] }) := by
  obtain ⟨s, t⟩ := r
  obtain ⟨m, a, la, oh, l0, p⟩ := s
  simp only at hfree hl
  subst hfree hl
  simp [Addr, bind, Prog.bind, lock, unlock, readListener, listenerAddr, pure, Prog.pure]

/-- The method `Close` on a server whose RPC server is unset: the call of `Stop`
through the nil pointer panics. -/
theorem Close_no_rpcServer (env : Env) (r : Run) (hp : r.srv.rpcServer = none) :
    Close env r = (Outcome.panicked nilDeref,
      { srv := r.srv, trace := r.trace ++ [Event.read Field.rpcServer r.srv.mutHeld] }) := by
  simp [Close, bind, Prog.bind, readRpcServer, goPanic, hp]

/-- The method `Close` on a server with an RPC server and no listener. -/
theorem Close_no_listener (env : Env) (r : Run) (p : RpcServer)
    (hp : r.srv.rpcServer = some p) (hl : r.srv.listener = none) :
    Close env r = (Outcome.panicked nilDeref,
      { srv := r.srv, trace := r.trace ++ [Event.read Field.rpcServer r.srv.mutHeld,
          Event.rpcStop p, Event.read Field.listener r.srv.mutHeld] }) := by
  simp [Close, bind, Prog.bind, readRpcServer, readListener, rpcStop, goPanic, hp, hl]

/-- The method `Close` on a server with an RPC server and a listener. -/
theorem Close_started (env : Env) (r : Run) (p : RpcServer) (l : Listener)
    (hp : r.srv.rpcServer = some p) (hl : r.srv.listener = some l) :
    Close env r =
      (Outcome.returned (env.listenerClose (r.trace ++ [Event.read Field.rpcServer r.srv.mutHeld,
          Event.rpcStop p, Event.read Field.listener r.srv.mutHeld]) l),
       { srv := r.srv,
         trace := r.trace ++ [Event.read Field.rpcServer r.srv.mutHeld,
          Event.rpcStop p, Event.read Field.listener r.srv.mutHeld,
          Event.listenerClose l (env.listenerClose (r.trace ++
            [Event.read Field.rpcServer r.srv.mutHeld,
             Event.rpcStop p, Event.read Field.listener r.srv.mutHeld]) l)] }) := by
  simp [Close, bind, Prog.bind, readRpcServer, readListener, rpcStop, listenerClose, hp, hl]

/-- A call that leaves the history as it was adds no event. -/
theorem eventsOf_nil {α : Type} (m : Prog α) (r : Run) (o : Outcome α) (h : m r = (o, r)) :
    eventsOf m r = [] := by
  simp [eventsOf, h]

/-- The setup of `Listen` returns whenever the mutex is free, the registration
succeeds and the bind succeeds. -/
theorem ListenSetup_returns (env : Env) (r : Run) (hfree : r.srv.mutHeld = false)
    (hreg : ∀ hist p svc, env.registerName hist p "mesh" svc = none)
    (hbind : ∀ hist, ∃ l, env.netListen hist "tcp4" r.srv.addr = ListenResult.ok l) :
    (ListenSetup env r).1 = Outcome.returned () := by
  rcases ListenSetup_free env r hfree with
    ⟨hist, p, e, ho, -⟩ | ⟨hist, p, e, ho, -⟩ | ⟨-, p, l, -, hs⟩
  · rw [hreg] at ho
    cases ho
  · obtain ⟨l, hl⟩ := hbind hist
    rw [hl] at ho
    cases ho
  · rw [hs]

/-- Every way `Listen` can end: blocked at `Lock`; a fatal exit after a failed
registration, the mutex held; a fatal exit after a failed bind, the mutex free;
the serve call returned an error, which `Listen` returns; the serve call blocks. -/
theorem Listen_cases (env : Env) (r : Run) :
    (r.srv.mutHeld = true ∧ Listen env r = (Outcome.blocked, r)) ∨
    (∃ p e, Listen env r = (Outcome.exited 1,
        { srv := { r.srv with mutHeld := true, rpcServer := some p },
          trace := r.trace ++ [Event.lock, Event.read Field.orderHandler true,
            Event.rpcNewServer p, Event.write Field.rpcServer true,
            Event.read Field.rpcServer true,
            Event.registerName p "mesh" { orderHandler := r.srv.orderHandler } (some e),
            Event.logFatal "could not register RPC service" e] })) ∨
    (∃ p e, Listen env r = (Outcome.exited 1,
        { srv := { r.srv with mutHeld := false, rpcServer := some p },
          trace := r.trace ++ [Event.lock, Event.read Field.orderHandler true,
            Event.rpcNewServer p, Event.write Field.rpcServer true,
            Event.read Field.rpcServer true,
            Event.registerName p "mesh" { orderHandler := r.srv.orderHandler } none,
            Event.read Field.addr true,
            Event.netListen "tcp4" r.srv.addr (ListenResult.error e),
            Event.unlock,
            Event.logFatal "could not start listener" e] })) ∨
    (∃ p l e, Listen env r = (Outcome.returned (some e),
        { srv := { r.srv with mutHeld := false, rpcServer := some p, listener := some l },
          trace := r.trace ++ [Event.lock, Event.read Field.orderHandler true,
            Event.rpcNewServer p, Event.write Field.rpcServer true,
            Event.read Field.rpcServer true,
            Event.registerName p "mesh" { orderHandler := r.srv.orderHandler } none,
            Event.read Field.addr true,
            Event.netListen "tcp4" r.srv.addr (ListenResult.ok l),
            Event.write Field.listener true,
            Event.unlock,
            Event.read Field.listener false,
            Event.read Field.rpcServer false,
            Event.websocketHandler (some p) ["*"],
            Event.httpServe l { srv := some p, allowedOrigins := ["*"] } (some e)] })) ∨
    (∃ p l, Listen env r = (Outcome.blocked,
        { srv := { r.srv with mutHeld := false, rpcServer := some p, listener := some l },
          trace := r.trace ++ [Event.lock, Event.read Field.orderHandler true,
            Event.rpcNewServer p, Event.write Field.rpcServer true,
            Event.read Field.rpcServer true,
            Event.registerName p "mesh" { orderHandler := r.srv.orderHandler } none,
            Event.read Field.addr true,
            Event.netListen "tcp4" r.srv.addr (ListenResult.ok l),
            Event.write Field.listener true,
            Event.unlock,
            Event.read Field.listener false,
            Event.read Field.rpcServer false,
            Event.websocketHandler (some p) ["*"],
            Event.httpServe l { srv := some p, allowedOrigins := ["*"] } none] })) := by
  cases hm : r.srv.mutHeld with
  | true =>
    left
    refine ⟨rfl, ?_⟩
    rw [Listen_eq, ListenSetup_held env r hm]
  | false =>
    right
    rcases ListenSetup_free env r hm with
      ⟨-, p, e, -, hs⟩ | ⟨-, p, e, -, hs⟩ | ⟨-, p, l, -, hs⟩
    · left
      exact ⟨p, e, by rw [Listen_eq, hs]⟩
    · right; left
      exact ⟨p, e, by rw [Listen_eq, hs]⟩
    · right; right
      rcases ListenServe_some env
          { srv := { r.srv with mutHeld := false, rpcServer := some p, listener := some l },
            trace := r.trace ++ [Event.lock, Event.read Field.orderHandler true,
              Event.rpcNewServer p, Event.write Field.rpcServer true,
              Event.read Field.rpcServer true,
              Event.registerName p "mesh" { orderHandler := r.srv.orderHandler } none,
              Event.read Field.addr true,
              Event.netListen "tcp4" r.srv.addr (ListenResult.ok l),
              Event.write Field.listener true,
              Event.unlock] } l rfl with ⟨e, hv⟩ | hv
      · left
        refine ⟨p, l, e, ?_⟩
        rw [Listen_eq, hs]
        simp only [hv]
        simp
      · right
        refine ⟨p, l, ?_⟩
        rw [Listen_eq, hs]
        simp only [hv]
        simp


/-! ## The claims -/

/-- C1: for every address `a` and handler `h`, `NewServer a h` returns a nil
error and a server without listener, and `Addr` on that server, whatever happened
before in the process, returns nil. -/
theorem NewServer_then_Addr_nil (a : String) (h : OrderHandler) :
    (NewServer a h).2 = none ∧ (NewServer a h).1.listener = none ∧
    ∀ hist : List Event,
      (Addr { srv := (NewServer a h).1, trace := hist }).1 = Outcome.returned none := by
  refine ⟨rfl, rfl, ?_⟩
  intro hist
  rw [Addr_free_none _ rfl rfl]

/-- C2: on the server built by `NewServer a h`, whatever happened before in the
process, if the bind that `Listen` performs at the network `tcp4` and exactly the
address `a` succeeds with listener `L`, then the setup of `Listen` finishes, the
listener of the server is `L`, and `Addr` then returns the non-nil address
`L.Addr()`, the one actually bound. -/
theorem Listen_bound_then_Addr (env : Env) (a : String) (h : OrderHandler) (L : Listener)
    (hist : List Event)
    (hbind : Event.netListen "tcp4" a (ListenResult.ok L) ∈
      eventsOf (ListenSetup env) { srv := (NewServer a h).1, trace := hist }) :
    (ListenSetup env { srv := (NewServer a h).1, trace := hist }).1 = Outcome.returned () ∧
    (ListenSetup env { srv := (NewServer a h).1, trace := hist }).2.srv.listener = some L ∧
    (Addr (ListenSetup env { srv := (NewServer a h).1, trace := hist }).2).1 =
      Outcome.returned (some L.laddr) := by
  rcases ListenSetup_free env { srv := (NewServer a h).1, trace := hist } rfl with
    ⟨-, p, e, -, hs⟩ | ⟨-, p, e, -, hs⟩ | ⟨-, p, l, -, hs⟩
  · rw [eventsOf_eq _ _ _ _ _ hs] at hbind
    simp at hbind
  · rw [eventsOf_eq _ _ _ _ _ hs] at hbind
    simp at hbind
  · rw [eventsOf_eq _ _ _ _ _ hs] at hbind
    simp at hbind
    obtain ⟨-, hL⟩ := hbind
    subst hL
    rw [hs]
    refine ⟨rfl, rfl, ?_⟩
    rw [Addr_free_some _ L rfl rfl]

/-- Witness of C2: with libraries that work and the address `127.0.0.1:0`, the
setup finishes and `Addr` returns the port the operating system assigned. -/
theorem Listen_bound_then_Addr_witness :
    (ListenSetup envOk (start "127.0.0.1:0" someHandler)).1 = Outcome.returned () ∧
    (ListenSetup envOk (start "127.0.0.1:0" someHandler)).2.srv.listener =
      some { fd := 7, laddr := boundAddr } ∧
    (Addr (ListenSetup envOk (start "127.0.0.1:0" someHandler)).2).1 =
      Outcome.returned (some { network := "tcp", str := "127.0.0.1:60557" }) :=
  Listen_bound_then_Addr envOk "127.0.0.1:0" someHandler { fd := 7, laddr := boundAddr } []
    (by decide)

/-- C6: on every server whose RPC server `p` and listener `l` are both set,
`Close` performs exactly four steps, in this order: it reads `rpcServer`, stops
`p`, reads `listener`, closes `l`; and it returns exactly the result of closing
`l` (nil when the listener closes cleanly). -/
theorem Close_stops_then_closes (env : Env) (r : Run) (p : RpcServer) (l : Listener)
    (hp : r.srv.rpcServer = some p) (hl : r.srv.listener = some l) :
    ∃ res : Option GoError,
      (Close env r).1 = Outcome.returned res ∧
      eventsOf (Close env) r =
        [Event.read Field.rpcServer r.srv.mutHeld, Event.rpcStop p,
         Event.read Field.listener r.srv.mutHeld, Event.listenerClose l res] ∧
      res = env.listenerClose (r.trace ++ [Event.read Field.rpcServer r.srv.mutHeld,
        Event.rpcStop p, Event.read Field.listener r.srv.mutHeld]) l := by
  refine ⟨_, ?_, eventsOf_eq _ _ _ _ _ (Close_started env r p l hp hl), rfl⟩
  rw [Close_started env r p l hp hl]

/-- Witness of C6: `Close` on the listening server of the examples stops the RPC
server, then closes the listener, and returns nil. -/
theorem Close_stops_then_closes_witness :
    ∃ res : Option GoError,
      (Close envOk listening).1 = Outcome.returned res ∧
      eventsOf (Close envOk) listening =
        [Event.read Field.rpcServer listening.srv.mutHeld, Event.rpcStop { ptr := 2 },
         Event.read Field.listener listening.srv.mutHeld,
         Event.listenerClose { fd := 7, laddr := boundAddr } res] ∧
      res = envOk.listenerClose (listening.trace ++
        [Event.read Field.rpcServer listening.srv.mutHeld,
         Event.rpcStop { ptr := 2 }, Event.read Field.listener listening.srv.mutHeld])
        { fd := 7, laddr := boundAddr } :=
  Close_stops_then_closes envOk listening { ptr := 2 } { fd := 7, laddr := boundAddr }
    (by decide) (by decide)

/-- C10: on every server whose listener is set, `Close` and `Addr` leave the
whole struct as it was (so `addr`, `orderHandler`, `listener` and `rpcServer` are
unchanged); whenever `Addr` returns the mutex is free; with the mutex free `Addr`
returns the address of the listener, before `Close` and after it; and in every
case `Addr` after `Close` ends as `Addr` before `Close`. -/
theorem Addr_Close_frame (env : Env) (r : Run) (L : Listener)
    (hl : r.srv.listener = some L) :
    (Close env r).2.srv = r.srv ∧
    (Addr r).2.srv = r.srv ∧
    (∀ v, (Addr r).1 = Outcome.returned v → (Addr r).2.srv.mutHeld = false) ∧
    (r.srv.mutHeld = false →
      (Addr r).1 = Outcome.returned (some L.laddr) ∧
      (Addr (Close env r).2).1 = Outcome.returned (some L.laddr)) ∧
    (Addr (Close env r).2).1 = (Addr r).1 := by
  have hclose : (Close env r).2.srv = r.srv := by
    cases hp : r.srv.rpcServer with
    | none => rw [Close_no_rpcServer env r hp]
    | some p => rw [Close_started env r p L hp hl]
  have hl2 : (Close env r).2.srv.listener = some L := by rw [hclose]; exact hl
  cases hm : r.srv.mutHeld with
  | true =>
    have hm2 : (Close env r).2.srv.mutHeld = true := by rw [hclose]; exact hm
    refine ⟨hclose, ?_, ?_, ?_, ?_⟩
    · rw [Addr_held r hm]
    · intro v hv
      rw [Addr_held r hm] at hv
      cases hv
    · intro hfalse
      cases hfalse
    · rw [Addr_held r hm, Addr_held _ hm2]
  | false =>
    have hm2 : (Close env r).2.srv.mutHeld = false := by rw [hclose]; exact hm
    refine ⟨hclose, ?_, ?_, ?_, ?_⟩
    · rw [Addr_free_some r L hm hl]
    · intro v _
      rw [Addr_free_some r L hm hl]
      exact hm
    · intro _
      rw [Addr_free_some r L hm hl, Addr_free_some _ L hm2 hl2]
      exact ⟨rfl, rfl⟩
    · rw [Addr_free_some r L hm hl, Addr_free_some _ L hm2 hl2]

/-- Witness of C10: on the listening server of the examples nothing in the struct
changes, and `Addr` returns the bound address before `Close` and after it. -/
theorem Addr_Close_frame_witness :
    (Close envOk listening).2.srv = listening.srv ∧
    (Addr listening).2.srv = listening.srv ∧
    (Addr listening).1 = Outcome.returned (some boundAddr) ∧
    (Addr (Close envOk listening).2).1 = Outcome.returned (some boundAddr) :=
  have h := Addr_Close_frame envOk listening { fd := 7, laddr := boundAddr } (by decide)
  ⟨h.1, h.2.1, (h.2.2.2.1 (by decide)).1, (h.2.2.2.1 (by decide)).2⟩

/-- C3, as stated, fails: when the bind fails, `Listen` does not return the
failure to its caller; the fatal log call ends the process with status 1. -/
theorem Listen_bind_failure_not_returned :
    Event.netListen "tcp4" "127.0.0.1:60557" (ListenResult.error errInUse) ∈
      eventsOf (Listen envBindFail) (start "127.0.0.1:60557" someHandler) ∧
    (Listen envBindFail (start "127.0.0.1:60557" someHandler)).1 = Outcome.exited 1 ∧
    (Listen envBindFail (start "127.0.0.1:60557" someHandler)).1 ≠
      Outcome.returned (some errInUse) := by
  decide

/-- C3, amended: on every server, if the registration or the bind that `Listen`
performs fails, the start sequence is aborted by the fatal log call, which ends
the process with status 1: the last step is that log call, carrying the error of
the failed step, no serve call is made, the listener field is as it was before,
and `Listen` returns nothing to its caller. -/
theorem Listen_startup_failure_exits (env : Env) (r : Run)
    (hfail : (∃ p svc e, Event.registerName p "mesh" svc (some e) ∈ eventsOf (Listen env) r) ∨
      (∃ e, Event.netListen "tcp4" r.srv.addr (ListenResult.error e) ∈
        eventsOf (Listen env) r)) :
    (Listen env r).1 = Outcome.exited 1 ∧
    (∀ v, (Listen env r).1 ≠ Outcome.returned v) ∧
    (∀ l h res, Event.httpServe l h res ∉ eventsOf (Listen env) r) ∧
    (Listen env r).2.srv.listener = r.srv.listener ∧
    ((∃ p svc e, Event.registerName p "mesh" svc (some e) ∈ eventsOf (Listen env) r ∧
        (eventsOf (Listen env) r).getLast? =
          some (Event.logFatal "could not register RPC service" e)) ∨
      (∃ e, Event.netListen "tcp4" r.srv.addr (ListenResult.error e) ∈ eventsOf (Listen env) r ∧
        (eventsOf (Listen env) r).getLast? =
          some (Event.logFatal "could not start listener" e))) := by
  rcases Listen_cases env r with
    ⟨-, hs⟩ | ⟨p, e, hs⟩ | ⟨p, e, hs⟩ | ⟨p, l, e, hs⟩ | ⟨p, l, hs⟩
  · rw [eventsOf_nil _ _ _ hs] at hfail
    simp at hfail
  · have hev := eventsOf_eq _ _ _ _ _ hs
    rw [hev, hs]
    refine ⟨rfl, ?_, ?_, rfl, ?_⟩
    · intro v hv
      cases hv
    · simp
    · left
      exact ⟨p, { orderHandler := r.srv.orderHandler }, e, by simp, by simp⟩
  · have hev := eventsOf_eq _ _ _ _ _ hs
    rw [hev, hs]
    refine ⟨rfl, ?_, ?_, rfl, ?_⟩
    · intro v hv
      cases hv
    · simp
    · right
      exact ⟨e, by simp, by simp⟩
  · rw [eventsOf_eq _ _ _ _ _ hs] at hfail
    simp at hfail
  · rw [eventsOf_eq _ _ _ _ _ hs] at hfail
    simp at hfail

/-- Witness of C3, amended: with a bind that fails, `Listen` on a new server
exits with status 1 and leaves the listener unset. -/
theorem Listen_startup_failure_exits_witness :
    (Listen envBindFail (start "127.0.0.1:60557" someHandler)).1 = Outcome.exited 1 ∧
    (Listen envBindFail (start "127.0.0.1:60557" someHandler)).2.srv.listener = none :=
  have h := Listen_startup_failure_exits envBindFail (start "127.0.0.1:60557" someHandler)
    (Or.inr ⟨errInUse, by decide⟩)
  ⟨h.1, h.2.2.2.1⟩

/-- C4, the path that breaks it: on every server, when the registration that
`Listen` performs fails, `Listen` leaves its setup through the fatal log call
with the mutex still held (line 46 has no `Unlock`, line 50 has one). -/
theorem Listen_registration_failure_holds_lock (env : Env) (r : Run)
    (hfail : ∃ p svc e, Event.registerName p "mesh" svc (some e) ∈ eventsOf (Listen env) r) :
    (Listen env r).1 = Outcome.exited 1 ∧ (Listen env r).2.srv.mutHeld = true ∧
    Event.unlock ∉ eventsOf (Listen env) r := by
  rcases Listen_cases env r with
    ⟨-, hs⟩ | ⟨p, e, hs⟩ | ⟨p, e, hs⟩ | ⟨p, l, e, hs⟩ | ⟨p, l, hs⟩
  · rw [eventsOf_nil _ _ _ hs] at hfail
    simp at hfail
  · rw [eventsOf_eq _ _ _ _ _ hs, hs]
    refine ⟨rfl, rfl, ?_⟩
    simp
  · rw [eventsOf_eq _ _ _ _ _ hs] at hfail
    simp at hfail
  · rw [eventsOf_eq _ _ _ _ _ hs] at hfail
    simp at hfail
  · rw [eventsOf_eq _ _ _ _ _ hs] at hfail
    simp at hfail

/-- Witness of C4: with a registration that fails, `Listen` on a new server exits
with the mutex held. -/
theorem Listen_registration_failure_holds_lock_witness :
    (Listen envRegFail (start "127.0.0.1:0" someHandler)).1 = Outcome.exited 1 ∧
    (Listen envRegFail (start "127.0.0.1:0" someHandler)).2.srv.mutHeld = true ∧
    Event.unlock ∉ eventsOf (Listen envRegFail) (start "127.0.0.1:0" someHandler) :=
  Listen_registration_failure_holds_lock envRegFail (start "127.0.0.1:0" someHandler)
    ⟨{ ptr := 2 }, { orderHandler := someHandler }, errNoMethods, by decide⟩

/-- The part of C4 that holds: on every other path on which `Listen` took the
mutex (a failed bind, or the serve call reached, returned or not), the mutex is
free when the setup is left, and it is free at the serve call. -/
theorem Listen_lock_free_otherwise (env : Env) (r : Run)
    (hlock : Event.lock ∈ eventsOf (Listen env) r)
    (hreg : ∀ p svc e, Event.registerName p "mesh" svc (some e) ∉ eventsOf (Listen env) r) :
    (Listen env r).2.srv.mutHeld = false := by
  rcases Listen_cases env r with
    ⟨-, hs⟩ | ⟨p, e, hs⟩ | ⟨p, e, hs⟩ | ⟨p, l, e, hs⟩ | ⟨p, l, hs⟩
  · rw [eventsOf_nil _ _ _ hs] at hlock
    simp at hlock
  · exfalso
    apply hreg p { orderHandler := r.srv.orderHandler } e
    rw [eventsOf_eq _ _ _ _ _ hs]
    simp
  · rw [hs]
  · rw [hs]
  · rw [hs]

/-- C5, as stated, fails: `Close` runs on the listening server (another goroutine,
after line 54), the serve call then ends because its listener is closed, and
`Listen` returns exactly the transport error of the serve call. -/
theorem Listen_after_Close_returns_transport_error :
    (Close envOk listening).1 = Outcome.returned none ∧
    (eventsOf (ListenServe envOk) closed).getLast? =
      some (Event.httpServe { fd := 7, laddr := boundAddr }
        { srv := some { ptr := 2 }, allowedOrigins := ["*"] } (some errClosedConn)) ∧
    ¬ ((ListenServe envOk closed).1 ≠ Outcome.returned (some errClosedConn)) := by
  decide

/-- C5, amended: on every server and whatever happened before (a `Close`
included), when the serve call of line 56 ends with an error `e`, `Listen`
returns exactly `e`; nothing is put in its place. -/
theorem ListenServe_returns_serve_error (env : Env) (r : Run) (l : Listener) (h : Handler)
    (e : GoError)
    (hserve : (eventsOf (ListenServe env) r).getLast? = some (Event.httpServe l h (some e))) :
    (ListenServe env r).1 = Outcome.returned (some e) := by
  cases hl : r.srv.listener with
  | none =>
    rw [eventsOf_eq _ _ _ _ _ (ListenServe_none env r hl)] at hserve
    simp at hserve
  | some l0 =>
    rcases ListenServe_some env r l0 hl with ⟨e0, hs⟩ | hs
    · rw [eventsOf_eq _ _ _ _ _ hs] at hserve
      simp at hserve
      rw [hs, ← hserve.2.2]
    · rw [eventsOf_eq _ _ _ _ _ hs] at hserve
      simp at hserve

/-- Witness of C5, amended: on the closed server of the examples `Listen` returns
the error of the serve call. -/
theorem ListenServe_returns_serve_error_witness :
    (ListenServe envOk closed).1 = Outcome.returned (some errClosedConn) :=
  ListenServe_returns_serve_error envOk closed { fd := 7, laddr := boundAddr }
    { srv := some { ptr := 2 }, allowedOrigins := ["*"] } errClosedConn (by decide)

/-- The same for the whole of `Listen`: when the serve call it makes ends with an
error `e`, `Listen` returns `e`. -/
theorem Listen_returns_serve_error (env : Env) (r : Run) (l : Listener) (h : Handler)
    (e : GoError)
    (hserve : (eventsOf (Listen env) r).getLast? = some (Event.httpServe l h (some e))) :
    (Listen env r).1 = Outcome.returned (some e) := by
  rcases Listen_cases env r with
    ⟨-, hs⟩ | ⟨p, e0, hs⟩ | ⟨p, e0, hs⟩ | ⟨p, l0, e0, hs⟩ | ⟨p, l0, hs⟩
  · rw [eventsOf_nil _ _ _ hs] at hserve
    simp at hserve
  · rw [eventsOf_eq _ _ _ _ _ hs] at hserve
    simp at hserve
  · rw [eventsOf_eq _ _ _ _ _ hs] at hserve
    simp at hserve
  · rw [eventsOf_eq _ _ _ _ _ hs] at hserve
    simp at hserve
    rw [hs, ← hserve.2.2]
  · rw [eventsOf_eq _ _ _ _ _ hs] at hserve
    simp at hserve

/-- C7, the state that breaks it: on the server built by `NewServer a h`, before
any `Listen` and whatever happened before in the process, `rpcServer` and
`listener` are unset and `Close` panics: its only step is the read of
`rpcServer`, with no lock taken, the call of `Stop` through that nil pointer
panics, and no result, nil or error, is returned.  The sibling `Addr` guards the
same state and returns nil. -/
theorem Close_before_Listen_panics (env : Env) (a : String) (h : OrderHandler)
    (hist : List Event) :
    (NewServer a h).1.rpcServer = none ∧
    (NewServer a h).1.listener = none ∧
    (Close env { srv := (NewServer a h).1, trace := hist }).1 = Outcome.panicked nilDeref ∧
    (∀ res, (Close env { srv := (NewServer a h).1, trace := hist }).1 ≠ Outcome.returned res) ∧
    eventsOf (Close env) { srv := (NewServer a h).1, trace := hist } =
      [Event.read Field.rpcServer false] ∧
    (Addr { srv := (NewServer a h).1, trace := hist }).1 = Outcome.returned none := by
  have hc := Close_no_rpcServer env { srv := (NewServer a h).1, trace := hist } rfl
  refine ⟨rfl, rfl, ?_, ?_, ?_, ?_⟩
  · rw [hc]
  · intro res hres
    rw [hc] at hres
    cases hres
  · exact eventsOf_eq _ _ _ _ _ hc
  · rw [Addr_free_none _ rfl rfl]

/-- The part of C7 that holds: on every server whose `rpcServer` and `listener`
are both set (the setup of `Listen` completed; the server may already be
closed), `Close` returns exactly the result of closing the listener, after
stopping the RPC server, and leaves the struct as it was, so that a later `Close`
again returns the result of closing the listener. -/
theorem Close_returns_when_set (env : Env) (r : Run) (p : RpcServer) (l : Listener)
    (hp : r.srv.rpcServer = some p) (hl : r.srv.listener = some l) :
    (Close env r).1 = Outcome.returned (env.listenerClose (r.trace ++
      [Event.read Field.rpcServer r.srv.mutHeld, Event.rpcStop p,
       Event.read Field.listener r.srv.mutHeld]) l) ∧
    (Close env r).2.srv = r.srv ∧
    (Close env (Close env r).2).1 = Outcome.returned (env.listenerClose ((Close env r).2.trace ++
      [Event.read Field.rpcServer r.srv.mutHeld, Event.rpcStop p,
       Event.read Field.listener r.srv.mutHeld]) l) := by
  have h1 := Close_started env r p l hp hl
  have hs : (Close env r).2.srv = r.srv := by rw [h1]
  have hp2 : (Close env r).2.srv.rpcServer = some p := by rw [hs]; exact hp
  have hl2 : (Close env r).2.srv.listener = some l := by rw [hs]; exact hl
  refine ⟨?_, hs, ?_⟩
  · rw [h1]
  · rw [Close_started env _ p l hp2 hl2, hs]

/-- C8, as stated, fails: `Listen` on the closed server binds a new socket and
installs it as the listener, and `Listen` on the listening server replaces its
listener. -/
theorem Listen_again_rebinds :
    closed = (Close envOk listening).2 ∧
    closed.srv.listener = some { fd := 7, laddr := boundAddr } ∧
    (ListenSetup envOk closed).1 = Outcome.returned () ∧
    Event.netListen "tcp4" "127.0.0.1:0" (ListenResult.ok { fd := 21, laddr := addrOfFd 21 }) ∈
      eventsOf (ListenSetup envOk) closed ∧
    (ListenSetup envOk closed).2.srv.listener = some { fd := 21, laddr := addrOfFd 21 } ∧
    listening.srv.listener = some { fd := 7, laddr := boundAddr } ∧
    (ListenSetup envOk listening).1 = Outcome.returned () ∧
    (ListenSetup envOk listening).2.srv.listener = some { fd := 17, laddr := addrOfFd 17 } := by
  decide

/-- C8, amended: the struct has no state tag and `Listen` has no guard.  `Addr`
and `Close` never change the listener field; but on every server, closed and
listening ones included, whenever the bind that `Listen` performs at the
configured address succeeds with a listener `L`, the setup finishes with `L`
installed in place of the previous listener; whenever the setup finishes it has
bound such a socket; and it does finish when the mutex is free and registration
and bind succeed. -/
theorem Listen_has_no_state_guard (env : Env) (r : Run) :
    (Addr r).2.srv.listener = r.srv.listener ∧
    (Close env r).2.srv.listener = r.srv.listener ∧
    (∀ L, Event.netListen "tcp4" r.srv.addr (ListenResult.ok L) ∈
        eventsOf (ListenSetup env) r →
      (ListenSetup env r).1 = Outcome.returned () ∧
      (ListenSetup env r).2.srv.listener = some L) ∧
    ((ListenSetup env r).1 = Outcome.returned () →
      ∃ L, Event.netListen "tcp4" r.srv.addr (ListenResult.ok L) ∈
          eventsOf (ListenSetup env) r ∧
        (ListenSetup env r).2.srv.listener = some L) ∧
    (r.srv.mutHeld = false →
      (∀ hist p svc, env.registerName hist p "mesh" svc = none) →
      (∀ hist, ∃ l, env.netListen hist "tcp4" r.srv.addr = ListenResult.ok l) →
      (ListenSetup env r).1 = Outcome.returned ()) := by
  refine ⟨?_, ?_, ?_, ?_, ListenSetup_returns env r⟩
  · cases hm : r.srv.mutHeld with
    | true => rw [Addr_held r hm]
    | false =>
      cases hl : r.srv.listener with
      | none => rw [Addr_free_none r hm hl]; exact hl
      | some l => rw [Addr_free_some r l hm hl]; exact hl
  · cases hp : r.srv.rpcServer with
    | none => rw [Close_no_rpcServer env r hp]
    | some p =>
      cases hl : r.srv.listener with
      | none => rw [Close_no_listener env r p hp hl]; exact hl
      | some l => rw [Close_started env r p l hp hl]; exact hl
  · intro L hL
    cases hm : r.srv.mutHeld with
    | true =>
      rw [eventsOf_nil _ _ _ (ListenSetup_held env r hm)] at hL
      simp at hL
    | false =>
      rcases ListenSetup_free env r hm with
        ⟨-, p, e, -, hs⟩ | ⟨-, p, e, -, hs⟩ | ⟨-, p, l, -, hs⟩
      · rw [eventsOf_eq _ _ _ _ _ hs] at hL
        simp at hL
      · rw [eventsOf_eq _ _ _ _ _ hs] at hL
        simp at hL
      · rw [eventsOf_eq _ _ _ _ _ hs] at hL
        simp at hL
        subst hL
        rw [hs]
        exact ⟨rfl, rfl⟩
  · intro hret
    cases hm : r.srv.mutHeld with
    | true =>
      rw [ListenSetup_held env r hm] at hret
      cases hret
    | false =>
      rcases ListenSetup_free env r hm with
        ⟨-, p, e, -, hs⟩ | ⟨-, p, e, -, hs⟩ | ⟨-, p, l, -, hs⟩
      · rw [hs] at hret
        cases hret
      · rw [hs] at hret
        cases hret
      · refine ⟨l, ?_, ?_⟩
        · rw [eventsOf_eq _ _ _ _ _ hs]
          simp
        · rw [hs]

/-- Witness of C8, amended: on the closed server of the examples the setup of
`Listen` finishes and installs the socket it has just bound. -/
theorem Listen_has_no_state_guard_witness :
    (ListenSetup envOk closed).1 = Outcome.returned () ∧
    (ListenSetup envOk closed).2.srv.listener = some { fd := 21, laddr := addrOfFd 21 } :=
  (Listen_has_no_state_guard envOk closed).2.2.1 { fd := 21, laddr := addrOfFd 21 } (by decide)

/-- C9, the accesses that break it: on every server with the mutex free and both
fields set, `Close` reads `rpcServer` and `listener` with the mutex free and
never takes it, and line 56 of `Listen` reads `listener` and `rpcServer` with the
mutex free; `Addr` reads `listener` only with the mutex held. -/
theorem Close_and_serve_read_without_lock (env : Env) (r : Run) (p : RpcServer)
    (l : Listener) (hfree : r.srv.mutHeld = false)
    (hp : r.srv.rpcServer = some p) (hl : r.srv.listener = some l) :
    Event.read Field.rpcServer false ∈ eventsOf (Close env) r ∧
    Event.read Field.listener false ∈ eventsOf (Close env) r ∧
    Event.lock ∉ eventsOf (Close env) r ∧
    Event.read Field.listener false ∈ eventsOf (ListenServe env) r ∧
    Event.read Field.rpcServer false ∈ eventsOf (ListenServe env) r ∧
    Event.lock ∉ eventsOf (ListenServe env) r ∧
    (∀ b, Event.read Field.listener b ∈ eventsOf Addr r → b = true) := by
  rw [eventsOf_eq _ _ _ _ _ (Close_started env r p l hp hl),
    eventsOf_eq _ _ _ _ _ (Addr_free_some r l hfree hl)]
  rcases ListenServe_some env r l hl with ⟨e, hs⟩ | hs
  · rw [eventsOf_eq _ _ _ _ _ hs, hfree]
    simp
  · rw [eventsOf_eq _ _ _ _ _ hs, hfree]
    simp

/-- Witness of C9: on the listening server of the examples `Close` reads both
fields with the mutex free. -/
theorem Close_and_serve_read_without_lock_witness :
    Event.read Field.rpcServer false ∈ eventsOf (Close envOk) listening ∧
    Event.read Field.listener false ∈ eventsOf (Close envOk) listening :=
  have h := Close_and_serve_read_without_lock envOk listening { ptr := 2 }
    { fd := 7, laddr := boundAddr } (by decide) (by decide) (by decide)
  ⟨h.1, h.2.1⟩

/-- The part of C9 that holds: in the setup of `Listen` and in `Addr`, every read
and every write of `listener` and `rpcServer` happens with the mutex held. -/
theorem setup_and_Addr_access_under_lock (env : Env) (r : Run) (f : Field) (b : Bool)
    (hacc : Event.read f b ∈ eventsOf (ListenSetup env) r ∨
      Event.write f b ∈ eventsOf (ListenSetup env) r ∨
      Event.read f b ∈ eventsOf Addr r ∨ Event.write f b ∈ eventsOf Addr r) :
    b = true := by
  cases hm : r.srv.mutHeld with
  | true =>
    rw [eventsOf_nil _ _ _ (ListenSetup_held env r hm), eventsOf_nil _ _ _ (Addr_held r hm)] at hacc
    simp at hacc
  | false =>
    have hAddr : ∀ ev, ev ∈ eventsOf Addr r →
        ev = Event.lock ∨ ev = Event.unlock ∨ ev = Event.read Field.listener true ∨
          ∃ l, ev = Event.listenerAddr l := by
      intro ev hev
      cases hl : r.srv.listener with
      | none =>
        rw [eventsOf_eq _ _ _ _ _ (Addr_free_none r hm hl)] at hev
        simp at hev
        tauto
      | some l =>
        rw [eventsOf_eq _ _ _ _ _ (Addr_free_some r l hm hl)] at hev
        simp at hev
        rcases hev with h | h | h | h
        · exact Or.inl h
        · exact Or.inr (Or.inr (Or.inl h))
        · exact Or.inr (Or.inr (Or.inr ⟨l, h⟩))
        · exact Or.inr (Or.inl h)
    have hA1 : Event.read f b ∈ eventsOf Addr r → b = true := by
      intro hev
      rcases hAddr _ hev with h | h | h | ⟨l, h⟩
      · cases h
      · cases h
      · cases h; rfl
      · cases h
    have hA2 : Event.write f b ∈ eventsOf Addr r → b = true := by
      intro hev
      rcases hAddr _ hev with h | h | h | ⟨l, h⟩
      · cases h
      · cases h
      · cases h
      · cases h
    rcases ListenSetup_free env r hm with
      ⟨-, p, e, -, hs⟩ | ⟨-, p, e, -, hs⟩ | ⟨-, p, l, -, hs⟩
    · rw [eventsOf_eq _ _ _ _ _ hs] at hacc
      rcases hacc with h | h | h | h
      · simp at h; tauto
      · simp at h; tauto
      · exact hA1 h
      · exact hA2 h
    · rw [eventsOf_eq _ _ _ _ _ hs] at hacc
      rcases hacc with h | h | h | h
      · simp at h; tauto
      · simp at h; tauto
      · exact hA1 h
      · exact hA2 h
    · rw [eventsOf_eq _ _ _ _ _ hs] at hacc
      rcases hacc with h | h | h | h
      · simp at h; tauto
      · simp at h; tauto
      · exact hA1 h
      · exact hA2 h

end Ws
